import Mathlib

/-!
Verification of the boxing hierarchy-reduction subsystem
(`oneflow/core/graph/boxing/hierarchical_sub_task_graph_builder.cpp`, given as
`src/unnamed/part_000`) and of the execution unit (`src/oneflow/actor/actor.cpp`)
of the oneflow repository, as a shallow embedding in Lean.

Machine integers (`int64_t` extents, `uint64_t` register ids) are modelled as
`Nat`: every value involved is non-negative and no operation here can overflow
in practice (extent products of realistic device hierarchies are tiny), so no
explicit modular reduction is inserted.
-/

namespace Oneflow

/-! ## Data model

`SbpParallel` is the per-axis distribution annotation proto: exactly one of
`split_parallel` (carrying the split dimension), `broadcast_parallel`, or
`partial_sum_parallel`.  Proto equality (`==` used by the reducers) is
structural equality. -/

inductive SbpParallel where
  | split (axis : Nat)
  | broadcast
  | partialSum
deriving DecidableEq, Inhabited

/-- A `ParallelDistribution` proto is a repeated field of `SbpParallel`,
one entry per hierarchy axis (`sbp_parallel(i)` is positional access). -/
abbrev ParallelDistribution := List SbpParallel

/-- The fields of the `ParallelConf` proto that `ParallelDesc` is built from:
the physical device set identity (`device_tag` plus the repeated `device_name`
field) and the device hierarchy (a shape, modelled as its dimension list).
The reducers copy the conf and overwrite only `hierarchy`. -/
structure ParallelConf where
  device_tag : String
  device_name : List String
  hierarchy : List Nat
deriving DecidableEq

/-- `ParallelDesc` is constructed from a `ParallelConf`; `hierarchy()` exposes
the conf's hierarchy shape. All other derived state is a function of the conf,
so the conf is the whole observable state. -/
structure ParallelDesc where
  parallel_conf : ParallelConf
deriving DecidableEq

def ParallelDesc.hierarchy (d : ParallelDesc) : List Nat :=
  d.parallel_conf.hierarchy

/-! ## Hierarchy reduction (`part_000`, lines 30-123)

Both reducers push `(extent, annotation)` entries in lockstep into a reduced
hierarchy vector and a reduced distribution proto, multiplying the extent of
the last pushed entry (`reduced_hierarchy.back()`) when the current axis merges
into the running group.  The two parallel output vectors are modelled as one
list of pairs. -/

/-- The scan loop of `ParallelAxesReduce` (lines 38-45).  `dPrev` is
`parallel_distribution.sbp_parallel(i - 1)`, `back` is the current last
`(extent, annotation)` output entry, and the remaining list holds
`(hierarchy->At(i), sbp_parallel(i))` for the axes not yet scanned.
Merging (`d = dPrev`) multiplies the extent of `back`; otherwise a new
entry is started. -/
def parallelAxesReduceLoop (dPrev : SbpParallel) (back : Nat × SbpParallel) :
    List (Nat × SbpParallel) → List (Nat × SbpParallel)
  | [] => [back]
  | (h, d) :: rest =>
    if d = dPrev then parallelAxesReduceLoop d (back.1 * h, back.2) rest
    else back :: parallelAxesReduceLoop d (h, d) rest

/-- `ParallelAxesReduce` (lines 30-49): independent reduction of one
descriptor/distribution side.  The first axis seeds the output; the loop scans
axes `1..NumAxes`.  The returned descriptor is built from a copy of the input's
`parallel_conf` whose hierarchy is replaced by the reduced hierarchy (lines
46-48).  `hierarchy->At(0)` on a rank-0 hierarchy is a caller contract
violation (fails fast in the source); that out-of-contract case returns the
inputs unchanged here and is excluded by the hypotheses of every theorem
about this function. -/
def ParallelAxesReduce (parallel_desc : ParallelDesc)
    (parallel_distribution : ParallelDistribution) :
    ParallelDesc × ParallelDistribution :=
  match parallel_desc.hierarchy, parallel_distribution with
  | h0 :: hrest, d0 :: drest =>
    let reduced := parallelAxesReduceLoop d0 (h0, d0) (hrest.zip drest)
    (⟨{ parallel_desc.parallel_conf with hierarchy := reduced.map Prod.fst }⟩,
     reduced.map Prod.snd)
  | _, _ => (parallel_desc, parallel_distribution)

/-- The scan loop of `CollaborativeParallelAxesReduce` (lines 71-86).  The
element scanned at each step is `((in extent, in sbp), (out extent, out sbp))`
for one axis; both sides merge when both annotations repeat
(`in sbp(i) = in sbp(i-1)` and `out sbp(i) = out sbp(i-1)`), otherwise both
sides start a new group at that position. -/
def collaborativeParallelAxesReduceLoop (dPrevIn dPrevOut : SbpParallel)
    (backIn backOut : Nat × SbpParallel) :
    List ((Nat × SbpParallel) × (Nat × SbpParallel)) →
      List (Nat × SbpParallel) × List (Nat × SbpParallel)
  | [] => ([backIn], [backOut])
  | ((hIn, dIn), (hOut, dOut)) :: rest =>
    if dIn = dPrevIn ∧ dOut = dPrevOut then
      collaborativeParallelAxesReduceLoop dIn dOut
        (backIn.1 * hIn, backIn.2) (backOut.1 * hOut, backOut.2) rest
    else
      let r := collaborativeParallelAxesReduceLoop dIn dOut
        (hIn, dIn) (hOut, dOut) rest
      (backIn :: r.1, backOut :: r.2)

/-- `CollaborativeParallelAxesReduce` (lines 51-95): joint reduction of the
producer (`in`) and consumer (`out`) sides.  `CHECK_EQ` requires equal
hierarchy ranks; axis 0 of each side seeds its output and the loop scans the
remaining axes of both sides together.  Each returned descriptor is built from
a copy of that side's `parallel_conf` with only the hierarchy replaced (lines
88-94).  The out-of-contract case (rank 0 or annotation length mismatch, which
fails fast in the source) returns the inputs unchanged here and is excluded by
theorem hypotheses. -/
def CollaborativeParallelAxesReduce
    (in_parallel_desc out_parallel_desc : ParallelDesc)
    (in_parallel_distribution out_parallel_distribution : ParallelDistribution) :
    (ParallelDesc × ParallelDistribution) × (ParallelDesc × ParallelDistribution) :=
  match in_parallel_desc.hierarchy, out_parallel_desc.hierarchy,
        in_parallel_distribution, out_parallel_distribution with
  | hIn0 :: hInRest, hOut0 :: hOutRest, dIn0 :: dInRest, dOut0 :: dOutRest =>
    let r := collaborativeParallelAxesReduceLoop dIn0 dOut0 (hIn0, dIn0) (hOut0, dOut0)
      ((hInRest.zip dInRest).zip (hOutRest.zip dOutRest))
    ((⟨{ in_parallel_desc.parallel_conf with hierarchy := r.1.map Prod.fst }⟩,
      r.1.map Prod.snd),
     (⟨{ out_parallel_desc.parallel_conf with hierarchy := r.2.map Prod.fst }⟩,
      r.2.map Prod.snd))
  | _, _, _, _ =>
    ((in_parallel_desc, in_parallel_distribution),
     (out_parallel_desc, out_parallel_distribution))

/-- `InOutParallelAxesReduce` (lines 97-123): mode dispatch.  Both sides
rank 1: return the four inputs unchanged.  Different ranks: independent
reduction of each side.  Equal ranks (and not both 1): collaborative
reduction. -/
def InOutParallelAxesReduce
    (in_parallel_desc out_parallel_desc : ParallelDesc)
    (in_parallel_distribution out_parallel_distribution : ParallelDistribution) :
    (ParallelDesc × ParallelDistribution) × (ParallelDesc × ParallelDistribution) :=
  let in_hierarchy_axes := in_parallel_desc.hierarchy.length
  let out_hierarchy_axes := out_parallel_desc.hierarchy.length
  if in_hierarchy_axes = 1 ∧ out_hierarchy_axes = 1 then
    ((in_parallel_desc, in_parallel_distribution),
     (out_parallel_desc, out_parallel_distribution))
  else if in_hierarchy_axes ≠ out_hierarchy_axes then
    (ParallelAxesReduce in_parallel_desc in_parallel_distribution,
     ParallelAxesReduce out_parallel_desc out_parallel_distribution)
  else
    CollaborativeParallelAxesReduce in_parallel_desc out_parallel_desc
      in_parallel_distribution out_parallel_distribution

/-! ## Hierarchical builder (`part_000`, lines 125-182)

The sub-builders themselves (one-to-one, B21, collective boxing, slice boxing,
naive B2B, naive B2P, and the chain combinator) live in other translation
units; here each variant is an opaque tag and the chain is the ordered tag
list assembled by the constructor. -/

inductive SubTskGphBuilderKind where
  | oneToOne
  | b21
  | collectiveBoxing
  | sliceBoxing
  | naiveB2B
  | naiveB2P
deriving DecidableEq

/-- `HierarchicalSubTskGphBuilder` owns one `ChainSubTskGphBuilder` built over
the ordered builder list; the member `sub_tsk_gph_builder_` is modelled as that
ordered list. -/
structure HierarchicalSubTskGphBuilder where
  sub_tsk_gph_builder_ : List SubTskGphBuilderKind
deriving DecidableEq

/-- The constructor `HierarchicalSubTskGphBuilder::HierarchicalSubTskGphBuilder`
(lines 141-152): six `emplace_back` steps in source order, with the collective
boxing builder included exactly when the session's
`nccl_use_compute_stream()` flag (read here, at construction, and never
again) is false. -/
def HierarchicalSubTskGphBuilder.init (nccl_use_compute_stream : Bool) :
    HierarchicalSubTskGphBuilder :=
  let builders : List SubTskGphBuilderKind := []
  let builders := builders ++ [SubTskGphBuilderKind.oneToOne]
  let builders := builders ++ [SubTskGphBuilderKind.b21]
  let builders := if !nccl_use_compute_stream then
    builders ++ [SubTskGphBuilderKind.collectiveBoxing] else builders
  let builders := builders ++ [SubTskGphBuilderKind.sliceBoxing]
  let builders := builders ++ [SubTskGphBuilderKind.naiveB2B]
  let builders := builders ++ [SubTskGphBuilderKind.naiveB2P]
  ⟨builders⟩

/-- The observable arguments of the single `sub_tsk_gph_builder->Build` call
made by `Build1dParallelHierarchySubTskGph` (lines 132-135): the chain it is
dispatched on, the two placements, and the two rank-1 annotations.  The
remaining arguments (`ctx`, task vectors, `lbi`, `logical_blob_desc`,
`time_shape`) are opaque pass-throughs forwarded verbatim and are not
modelled. -/
structure ChainDelegation where
  chain : List SubTskGphBuilderKind
  in_parallel_desc : ParallelDesc
  out_parallel_desc : ParallelDesc
  in_sbp_parallel : SbpParallel
  out_sbp_parallel : SbpParallel
deriving DecidableEq

/-- `Build1dParallelHierarchySubTskGph` (lines 125-137): one call to the chain
builder's `Build`, passing its two placement arguments through unchanged and
`sbp_parallel(0)` of each of its two distribution arguments. -/
def Build1dParallelHierarchySubTskGph
    (sub_tsk_gph_builder : List SubTskGphBuilderKind)
    (in_parallel_desc out_parallel_desc : ParallelDesc)
    (in_parallel_distribution out_parallel_distribution : ParallelDistribution) :
    ChainDelegation :=
  ⟨sub_tsk_gph_builder, in_parallel_desc, out_parallel_desc,
   in_parallel_distribution.headI, out_parallel_distribution.headI⟩

/-- Observable outcome of `HierarchicalSubTskGphBuilder::Build`.
`delegated` records the one call to `Build1dParallelHierarchySubTskGph`: the
two reduced distributions passed to it together with the chain call it
performs.  `fatal` is `UNIMPLEMENTED()` (line 179), which expands to a
`LOG(FATAL)`-style check failure defined outside `src/`: it aborts the
process, so control never reaches the statement after the `if`/`else`.
`boxingNotSupportedError` is `return Error::BoxingNotSupportedError()`
(line 181); the constructor exists to model that statement, which is
unreachable because both branches above it either return or abort. -/
inductive BuildResult where
  | delegated
      (reduced_in_parallel_distribution : ParallelDistribution)
      (reduced_out_parallel_distribution : ParallelDistribution)
      (chainCall : ChainDelegation)
  | fatal
  | boxingNotSupportedError
deriving DecidableEq

/-- `HierarchicalSubTskGphBuilder::Build` (lines 154-182): reduce via
`InOutParallelAxesReduce`; if both reduced hierarchies have one axis, call
`Build1dParallelHierarchySubTskGph` with the original (unreduced) placements
(line 176 passes `in_parallel_desc, out_parallel_desc`) and the reduced
distributions; otherwise `UNIMPLEMENTED()` aborts. -/
def HierarchicalSubTskGphBuilder.Build
    (builder : HierarchicalSubTskGphBuilder)
    (in_parallel_desc out_parallel_desc : ParallelDesc)
    (in_parallel_distribution out_parallel_distribution : ParallelDistribution) :
    BuildResult :=
  let reduced := InOutParallelAxesReduce in_parallel_desc out_parallel_desc
    in_parallel_distribution out_parallel_distribution
  let reduced_in_parallel_desc := reduced.1.1
  let reduced_out_parallel_desc := reduced.2.1
  let reduced_in_parallel_distribution := reduced.1.2
  let reduced_out_parallel_distribution := reduced.2.2
  if reduced_in_parallel_desc.hierarchy.length = 1
      ∧ reduced_out_parallel_desc.hierarchy.length = 1 then
    BuildResult.delegated reduced_in_parallel_distribution
      reduced_out_parallel_distribution
      (Build1dParallelHierarchySubTskGph builder.sub_tsk_gph_builder_
        in_parallel_desc out_parallel_desc
        reduced_in_parallel_distribution reduced_out_parallel_distribution)
  else
    BuildResult.fatal

/-! ## Execution unit (`src/oneflow/actor/actor.cpp`)

The kernel registry and the kernels' entry points are external; a kernel is
modelled by its observable interface used here: its registry key and its
`GetLbnFromBnInOp` query.  `Forward`/`Backward` are opaque entry points, so an
execution of the unit is modelled by its trace: the ordered list of entry
point invocations, each carrying the kernel, the selected entry point, and the
operand-resolution closure handed to it. -/

inductive WardFunc where
  | forward
  | backward
deriving DecidableEq

structure Kernel where
  op_name : String
  GetLbnFromBnInOp : String → String

/-- `ExecKernel`: a kernel reference plus the map from the kernel's operand
slot names (`bn_in_op`) to register descriptor ids.  `PbMap2HashMap` of a
proto map is modelled as the association list itself; `.at` lookup on a
missing key throws, modelled by `Option`. -/
structure ExecKernel where
  kernel : Kernel
  bn_in_op2regst_desc_id : List (String × Nat)

structure ExecNodeProto where
  op_name : String
  bn_in_op2regst_desc_id : List (String × Nat)

structure TaskProto where
  id : Nat
  is_forward : Bool
  exec_sequence : List ExecNodeProto

/-- A register: an externally owned buffer resolving tensor labels (`lbn`) to
blob slots.  `Blob` is the (opaque) type of blob pointers. -/
structure Regst (Blob : Type) where
  GetBlobPtrFromLbn : String → Blob

structure Actor where
  actor_id_ : Nat
  ward_func_ : WardFunc
  exec_kernel_vec_ : List ExecKernel

/-- `Actor::Init`: stores the task id, selects `&Kernel::Forward` when
`task_proto.is_forward()` and `&Kernel::Backward` otherwise, and builds
`exec_kernel_vec_` from the exec sequence in order, resolving each node's
`op_name` through the kernel manager singleton (passed here as the function
`GetKernelFromOpName`). -/
def Actor.Init (GetKernelFromOpName : String → Kernel) (task_proto : TaskProto) :
    Actor :=
  ⟨task_proto.id,
   if task_proto.is_forward then WardFunc.forward else WardFunc.backward,
   task_proto.exec_sequence.map (fun node =>
     ⟨GetKernelFromOpName node.op_name, node.bn_in_op2regst_desc_id⟩)⟩

/-- One entry-point invocation performed by `Actor::WardKernel`: the kernel it
fires, the entry point used (`ward_func_`), and the closure mapping an operand
slot name to the blob backing it for this call. -/
structure KernelInvocation (Blob : Type) where
  kernel : Kernel
  ward_func : WardFunc
  bnInOp2Blob : String → Option Blob

/-- `Actor::WardKernel`: iterates `exec_kernel_vec_` in order and, for each
binding, invokes the bound kernel through `ward_func_`, handing it the closure
that (a) looks up the slot's register descriptor id in
`bn_in_op2regst_desc_id`, (b) resolves that id to a register through the
caller-supplied `GetRegstFromRegstDescId`, (c) asks the kernel for the tensor
label (`lbn`) of the slot, and (d) returns that register's blob for that
label.  The returned list is the invocation trace in execution order. -/
def Actor.WardKernel {Blob : Type} (actor : Actor)
    (GetRegstFromRegstDescId : Nat → Regst Blob) : List (KernelInvocation Blob) :=
  actor.exec_kernel_vec_.map (fun ek =>
    ⟨ek.kernel, actor.ward_func_,
     fun bn_in_op =>
       (ek.bn_in_op2regst_desc_id.lookup bn_in_op).map (fun regst_desc_id =>
         (GetRegstFromRegstDescId regst_desc_id).GetBlobPtrFromLbn
           (ek.kernel.GetLbnFromBnInOp bn_in_op))⟩)

/-! ## Run decompositions

The spec describes both reduction modes as grouping the axis sequence into
maximal runs: axis `i` joins the group of axis `i - 1` exactly when the
merge condition holds between them.  `IsRunDecomposition l blocks` says that
`blocks` partitions the axis list `l` (order kept) into nonempty groups of
constant annotation such that adjacent groups carry different annotations:
this is precisely "axis `i` was merged into the current group iff its
annotation equals the annotation of axis `i - 1`". -/

/-- Annotation shared by a merged group: the annotation of its first axis. -/
def blockAnn (b : List (Nat × SbpParallel)) : SbpParallel :=
  b.headI.2

def IsRunDecomposition (l : List (Nat × SbpParallel))
    (blocks : List (List (Nat × SbpParallel))) : Prop :=
  blocks.flatten = l ∧
  (∀ b ∈ blocks, b ≠ [] ∧ ∀ x ∈ b, x.2 = blockAnn b) ∧
  List.Chain' (fun b1 b2 => blockAnn b1 ≠ blockAnn b2) blocks

/-- Joint annotation of a group merged collaboratively: producer and consumer
annotations of its first axis. -/
def jointAnn (b : List ((Nat × SbpParallel) × (Nat × SbpParallel))) :
    SbpParallel × SbpParallel :=
  (b.headI.1.2, b.headI.2.2)

/-- Joint run decomposition for collaborative reduction: the producer and
consumer axis sequences (zipped positionally) are partitioned into the same
nonempty groups, each group constant in the pair of annotations, adjacent
groups differing in that pair — i.e. a new group starts on both sides exactly
at the positions where the joint merge condition fails. -/
def IsJointRunDecomposition
    (l : List ((Nat × SbpParallel) × (Nat × SbpParallel)))
    (blocks : List (List ((Nat × SbpParallel) × (Nat × SbpParallel)))) : Prop :=
  blocks.flatten = l ∧
  (∀ b ∈ blocks, b ≠ [] ∧ ∀ x ∈ b, (x.1.2, x.2.2) = jointAnn b) ∧
  List.Chain' (fun b1 b2 => jointAnn b1 ≠ jointAnn b2) blocks

/-! ## Irreducibility predicates

A distribution (pair) is already reduced when no two adjacent axes are
mergeable under the applicable rule. -/

/-- No two adjacent annotations are equal (independent-mode mergeability). -/
def sbpIrreducible : List SbpParallel → Bool
  | a :: b :: rest => if a = b then false else sbpIrreducible (b :: rest)
  | _ => true

/-- No position has both sides' annotations repeating (collaborative-mode
mergeability), scanning the two equally long annotation lists together. -/
def collabIrreducible : List SbpParallel → List SbpParallel → Bool
  | a :: a' :: ra, b :: b' :: rb =>
    if a = a' ∧ b = b' then false else collabIrreducible (a' :: ra) (b' :: rb)
  | _, _ => true

/-! ## Concrete inputs used by counterexamples and witnesses -/

/-- A 2x2 device hierarchy over four devices. -/
def conf22 : ParallelConf :=
  ⟨"cuda", ["0:0-3"], [2, 2]⟩

def desc22 : ParallelDesc :=
  ⟨conf22⟩

/-- A rank-1 hierarchy over four devices. -/
def desc4 : ParallelDesc :=
  ⟨⟨"cuda", ["0:0-3"], [4]⟩⟩

/-- Both axes split along tensor dimension 0. -/
def distSS : ParallelDistribution :=
  [SbpParallel.split 0, SbpParallel.split 0]

/-- Split then broadcast: not reducible on this side. -/
def distSB : ParallelDistribution :=
  [SbpParallel.split 0, SbpParallel.broadcast]

/-- Broadcast then split: not reducible on this side. -/
def distBS : ParallelDistribution :=
  [SbpParallel.broadcast, SbpParallel.split 0]

/-! ## Theorems -/

/-- The independent-reduction scan loop computes exactly the maximal-run
decomposition of its input axis list: there is a run decomposition whose first
group starts with annotation `d`, and the loop output is, group by group, the
pair (product of the group's extents, the group's annotation). -/
theorem parallelAxesReduceLoop_runs (rest : List (Nat × SbpParallel)) :
    ∀ (h : Nat) (d : SbpParallel),
      ∃ blocks : List (List (Nat × SbpParallel)),
        IsRunDecomposition ((h, d) :: rest) blocks ∧
        (∃ b0 bs, blocks = b0 :: bs ∧ blockAnn b0 = d) ∧
        parallelAxesReduceLoop d (h, d) rest
          = blocks.map (fun b => ((b.map Prod.fst).prod, blockAnn b)) := by
  induction rest with
  | nil =>
    intro h d
    refine ⟨[[(h, d)]], ⟨rfl, ?_, ?_⟩, ⟨[(h, d)], [], rfl, rfl⟩, ?_⟩
    · intro b hb
      rw [List.mem_singleton] at hb
      subst hb
      refine ⟨by simp, ?_⟩
      intro x hx
      rw [List.mem_singleton] at hx
      subst hx
      rfl
    · exact List.chain'_singleton _
    · simp [parallelAxesReduceLoop, blockAnn]
  | cons x tl ih =>
    obtain ⟨h1, d1⟩ := x
    intro h d
    by_cases hc : d1 = d
    · subst hc
      obtain ⟨blocks, ⟨hflat, hconst, hchain⟩, ⟨b0, bs, hbeq, hb0ann⟩, heq⟩ :=
        ih (h * h1) d1
      subst hbeq
      obtain ⟨hb0ne, hb0c⟩ := hconst b0 (List.mem_cons_self b0 bs)
      obtain ⟨y, b0tl, hy⟩ := List.exists_cons_of_ne_nil hb0ne
      subst hy
      rw [List.flatten_cons, List.cons_append, List.cons.injEq] at hflat
      obtain ⟨hy0, htl⟩ := hflat
      subst hy0
      have hAnnB0 : blockAnn ((h * h1, d1) :: b0tl) = d1 := rfl
      have hb0tlAnn : ∀ x ∈ b0tl, x.2 = d1 := by
        intro x hx
        have := hb0c x (List.mem_cons_of_mem _ hx)
        rwa [hAnnB0] at this
      refine ⟨((h, d1) :: (h1, d1) :: b0tl) :: bs, ⟨?_, ?_, ?_⟩,
        ⟨(h, d1) :: (h1, d1) :: b0tl, bs, rfl, rfl⟩, ?_⟩
      · simp only [List.flatten_cons, List.cons_append, List.cons.injEq, true_and]
        rw [← htl]
      · intro b hb
        rcases List.mem_cons.mp hb with hb | hb
        · subst hb
          refine ⟨by simp, ?_⟩
          intro x hx
          rcases List.mem_cons.mp hx with hx | hx
          · subst hx; rfl
          rcases List.mem_cons.mp hx with hx | hx
          · subst hx; rfl
          · exact hb0tlAnn x hx
        · exact hconst b (List.mem_cons_of_mem _ hb)
      · rw [List.chain'_cons'] at hchain ⊢
        exact ⟨hchain.1, hchain.2⟩
      · have hstep : parallelAxesReduceLoop d1 (h, d1) ((h1, d1) :: tl)
            = parallelAxesReduceLoop d1 (h * h1, d1) tl := by
          simp [parallelAxesReduceLoop]
        rw [hstep, heq]
        simp only [List.map_cons, List.cons.injEq, and_true]
        simp [blockAnn, List.prod_cons, mul_assoc]
    · obtain ⟨blocks, ⟨hflat, hconst, hchain⟩, ⟨b0, bs, hbeq, hb0ann⟩, heq⟩ :=
        ih h1 d1
      refine ⟨[(h, d)] :: blocks, ⟨?_, ?_, ?_⟩, ⟨[(h, d)], blocks, rfl, rfl⟩, ?_⟩
      · simp only [List.flatten_cons, List.singleton_append, List.cons.injEq, true_and]
        exact hflat
      · intro b hb
        rcases List.mem_cons.mp hb with hb | hb
        · subst hb
          refine ⟨by simp, ?_⟩
          intro x hx
          rw [List.mem_singleton] at hx
          subst hx
          rfl
        · exact hconst b hb
      · rw [List.chain'_cons']
        refine ⟨?_, hchain⟩
        intro y hy
        subst hbeq
        simp only [List.head?_cons, Option.mem_def, Option.some.injEq] at hy
        subst hy
        rw [hb0ann]
        have hda : blockAnn [(h, d)] = d := rfl
        rw [hda]
        exact fun hdd => hc hdd.symm
      · have hstep : parallelAxesReduceLoop d (h, d) ((h1, d1) :: tl)
            = (h, d) :: parallelAxesReduceLoop d1 (h1, d1) tl := by
          simp [parallelAxesReduceLoop, hc]
        rw [hstep, heq]
        simp only [List.map_cons, List.cons.injEq, and_true]
        simp [blockAnn, List.prod_cons]

/-- Packaging of the loop lemma at the level of `ParallelAxesReduce`: for a
nonempty hierarchy with an annotation per axis, the reduced hierarchy and
reduced distribution are the per-group extent products and annotations of a
run decomposition of the input axes. -/
theorem ParallelAxesReduce_runs (parallel_desc : ParallelDesc)
    (parallel_distribution : ParallelDistribution)
    (hne : parallel_desc.hierarchy ≠ [])
    (hlen : parallel_distribution.length = parallel_desc.hierarchy.length) :
    ∃ blocks,
      IsRunDecomposition (parallel_desc.hierarchy.zip parallel_distribution) blocks ∧
      (ParallelAxesReduce parallel_desc parallel_distribution).1.hierarchy
        = blocks.map (fun b => (b.map Prod.fst).prod) ∧
      (ParallelAxesReduce parallel_desc parallel_distribution).2
        = blocks.map blockAnn := by
  obtain ⟨⟨tag, names, hier⟩⟩ := parallel_desc
  cases hier with
  | nil => exact absurd rfl hne
  | cons h0 hrest =>
    cases parallel_distribution with
    | nil => simp [ParallelDesc.hierarchy] at hlen
    | cons d0 drest =>
      obtain ⟨blocks, hdec, _, heq⟩ := parallelAxesReduceLoop_runs (hrest.zip drest) h0 d0
      refine ⟨blocks, ?_, ?_, ?_⟩
      · simpa [ParallelDesc.hierarchy] using hdec
      · show (parallelAxesReduceLoop d0 (h0, d0) (hrest.zip drest)).map Prod.fst = _
        rw [heq, List.map_map]
        rfl
      · show (parallelAxesReduceLoop d0 (h0, d0) (hrest.zip drest)).map Prod.snd = _
        rw [heq, List.map_map]
        rfl

/-- The collaborative scan loop computes exactly the maximal joint-run
decomposition of the zipped producer/consumer axis list: both sides are
grouped at the same positions, a group extending exactly while both
annotations repeat, and each side's output is its per-group extent product
paired with its side of the group's joint annotation. -/
theorem collaborativeParallelAxesReduceLoop_runs
    (rest : List ((Nat × SbpParallel) × (Nat × SbpParallel))) :
    ∀ (hIn hOut : Nat) (dIn dOut : SbpParallel),
      ∃ blocks,
        IsJointRunDecomposition (((hIn, dIn), (hOut, dOut)) :: rest) blocks ∧
        (∃ b0 bs, blocks = b0 :: bs ∧ jointAnn b0 = (dIn, dOut)) ∧
        collaborativeParallelAxesReduceLoop dIn dOut (hIn, dIn) (hOut, dOut) rest
          = (blocks.map (fun b => ((b.map (fun x => x.1.1)).prod, (jointAnn b).1)),
             blocks.map (fun b => ((b.map (fun x => x.2.1)).prod, (jointAnn b).2))) := by
  induction rest with
  | nil =>
    intro hIn hOut dIn dOut
    refine ⟨[[((hIn, dIn), (hOut, dOut))]], ⟨rfl, ?_, ?_⟩,
      ⟨[((hIn, dIn), (hOut, dOut))], [], rfl, rfl⟩, ?_⟩
    · intro b hb
      rw [List.mem_singleton] at hb
      subst hb
      refine ⟨by simp, ?_⟩
      intro x hx
      rw [List.mem_singleton] at hx
      subst hx
      rfl
    · exact List.chain'_singleton _
    · simp [collaborativeParallelAxesReduceLoop, jointAnn]
  | cons x tl ih =>
    obtain ⟨⟨hIn1, dIn1⟩, hOut1, dOut1⟩ := x
    intro hIn hOut dIn dOut
    by_cases hc : dIn1 = dIn ∧ dOut1 = dOut
    · obtain ⟨hcIn, hcOut⟩ := hc
      subst hcIn
      subst hcOut
      obtain ⟨blocks, ⟨hflat, hconst, hchain⟩, ⟨b0, bs, hbeq, hb0ann⟩, heq⟩ :=
        ih (hIn * hIn1) (hOut * hOut1) dIn1 dOut1
      subst hbeq
      obtain ⟨hb0ne, hb0c⟩ := hconst b0 (List.mem_cons_self b0 bs)
      obtain ⟨y, b0tl, hy⟩ := List.exists_cons_of_ne_nil hb0ne
      subst hy
      rw [List.flatten_cons, List.cons_append, List.cons.injEq] at hflat
      obtain ⟨hy0, htl⟩ := hflat
      subst hy0
      have hb0tlAnn : ∀ x ∈ b0tl, (x.1.2, x.2.2) = (dIn1, dOut1) := by
        intro x hx
        exact hb0c x (List.mem_cons_of_mem _ hx)
      refine ⟨(((hIn, dIn1), (hOut, dOut1)) :: ((hIn1, dIn1), (hOut1, dOut1)) :: b0tl) :: bs,
        ⟨?_, ?_, ?_⟩,
        ⟨((hIn, dIn1), (hOut, dOut1)) :: ((hIn1, dIn1), (hOut1, dOut1)) :: b0tl, bs, rfl, rfl⟩,
        ?_⟩
      · simp only [List.flatten_cons, List.cons_append, List.cons.injEq, true_and]
        rw [← htl]
      · intro b hb
        rcases List.mem_cons.mp hb with hb | hb
        · subst hb
          refine ⟨by simp, ?_⟩
          intro x hx
          rcases List.mem_cons.mp hx with hx | hx
          · subst hx; rfl
          rcases List.mem_cons.mp hx with hx | hx
          · subst hx; rfl
          · exact hb0tlAnn x hx
        · exact hconst b (List.mem_cons_of_mem _ hb)
      · rw [List.chain'_cons'] at hchain ⊢
        exact ⟨hchain.1, hchain.2⟩
      · have hstep : collaborativeParallelAxesReduceLoop dIn1 dOut1 (hIn, dIn1) (hOut, dOut1)
            ((((hIn1, dIn1), (hOut1, dOut1))) :: tl)
            = collaborativeParallelAxesReduceLoop dIn1 dOut1
                (hIn * hIn1, dIn1) (hOut * hOut1, dOut1) tl := by
          simp [collaborativeParallelAxesReduceLoop]
        rw [hstep, heq]
        simp only [List.map_cons, Prod.mk.injEq, List.cons.injEq, and_true]
        refine ⟨⟨?_, rfl⟩, ?_, rfl⟩
        · simp [jointAnn, List.prod_cons, mul_assoc]
        · simp [jointAnn, List.prod_cons, mul_assoc]
    · obtain ⟨blocks, ⟨hflat, hconst, hchain⟩, ⟨b0, bs, hbeq, hb0ann⟩, heq⟩ :=
        ih hIn1 hOut1 dIn1 dOut1
      refine ⟨[((hIn, dIn), (hOut, dOut))] :: blocks, ⟨?_, ?_, ?_⟩,
        ⟨[((hIn, dIn), (hOut, dOut))], blocks, rfl, rfl⟩, ?_⟩
      · simp only [List.flatten_cons, List.singleton_append, List.cons.injEq, true_and]
        exact hflat
      · intro b hb
        rcases List.mem_cons.mp hb with hb | hb
        · subst hb
          refine ⟨by simp, ?_⟩
          intro x hx
          rw [List.mem_singleton] at hx
          subst hx
          rfl
        · exact hconst b hb
      · rw [List.chain'_cons']
        refine ⟨?_, hchain⟩
        intro y hy
        subst hbeq
        simp only [List.head?_cons, Option.mem_def, Option.some.injEq] at hy
        subst hy
        rw [hb0ann]
        have hda : jointAnn [((hIn, dIn), (hOut, dOut))] = (dIn, dOut) := rfl
        rw [hda]
        intro hdd
        rw [Prod.mk.injEq] at hdd
        exact hc ⟨hdd.1.symm, hdd.2.symm⟩
      · have hstep : collaborativeParallelAxesReduceLoop dIn dOut (hIn, dIn) (hOut, dOut)
            ((((hIn1, dIn1), (hOut1, dOut1))) :: tl)
            = ((hIn, dIn) ::
                (collaborativeParallelAxesReduceLoop dIn1 dOut1
                  (hIn1, dIn1) (hOut1, dOut1) tl).1,
               (hOut, dOut) ::
                (collaborativeParallelAxesReduceLoop dIn1 dOut1
                  (hIn1, dIn1) (hOut1, dOut1) tl).2) := by
          simp [collaborativeParallelAxesReduceLoop, hc]
        rw [hstep, heq]
        simp only [List.map_cons, Prod.mk.injEq, List.cons.injEq, and_true]
        refine ⟨⟨?_, rfl⟩, ?_, rfl⟩
        · simp [jointAnn, List.prod_cons]
        · simp [jointAnn, List.prod_cons]

/-- Packaging of the collaborative loop lemma at the level of
`CollaborativeParallelAxesReduce`: under the function's contract (equal-rank
nonempty hierarchies, an annotation per axis on each side), the two reduced
sides are the per-group extent products and annotations of one shared joint
run decomposition. -/
theorem CollaborativeParallelAxesReduce_runs
    (in_parallel_desc out_parallel_desc : ParallelDesc)
    (in_parallel_distribution out_parallel_distribution : ParallelDistribution)
    (hrank : in_parallel_desc.hierarchy.length = out_parallel_desc.hierarchy.length)
    (hne : in_parallel_desc.hierarchy ≠ [])
    (hlenIn : in_parallel_distribution.length = in_parallel_desc.hierarchy.length)
    (hlenOut : out_parallel_distribution.length = out_parallel_desc.hierarchy.length) :
    ∃ blocks,
      IsJointRunDecomposition
        ((in_parallel_desc.hierarchy.zip in_parallel_distribution).zip
          (out_parallel_desc.hierarchy.zip out_parallel_distribution)) blocks ∧
      (CollaborativeParallelAxesReduce in_parallel_desc out_parallel_desc
        in_parallel_distribution out_parallel_distribution).1.1.hierarchy
        = blocks.map (fun b => (b.map (fun x => x.1.1)).prod) ∧
      (CollaborativeParallelAxesReduce in_parallel_desc out_parallel_desc
        in_parallel_distribution out_parallel_distribution).1.2
        = blocks.map (fun b => (jointAnn b).1) ∧
      (CollaborativeParallelAxesReduce in_parallel_desc out_parallel_desc
        in_parallel_distribution out_parallel_distribution).2.1.hierarchy
        = blocks.map (fun b => (b.map (fun x => x.2.1)).prod) ∧
      (CollaborativeParallelAxesReduce in_parallel_desc out_parallel_desc
        in_parallel_distribution out_parallel_distribution).2.2
        = blocks.map (fun b => (jointAnn b).2) := by
  obtain ⟨⟨tagIn, namesIn, hierIn⟩⟩ := in_parallel_desc
  obtain ⟨⟨tagOut, namesOut, hierOut⟩⟩ := out_parallel_desc
  cases hierIn with
  | nil => exact absurd rfl hne
  | cons hIn0 hInRest =>
    cases hierOut with
    | nil => simp [ParallelDesc.hierarchy] at hrank
    | cons hOut0 hOutRest =>
      cases in_parallel_distribution with
      | nil => simp [ParallelDesc.hierarchy] at hlenIn
      | cons dIn0 dInRest =>
        cases out_parallel_distribution with
        | nil => simp [ParallelDesc.hierarchy] at hlenOut
        | cons dOut0 dOutRest =>
          obtain ⟨blocks, hdec, _, heq⟩ :=
            collaborativeParallelAxesReduceLoop_runs
              ((hInRest.zip dInRest).zip (hOutRest.zip dOutRest)) hIn0 hOut0 dIn0 dOut0
          refine ⟨blocks, ?_, ?_, ?_, ?_, ?_⟩
          · simpa [ParallelDesc.hierarchy] using hdec
          · show ((collaborativeParallelAxesReduceLoop dIn0 dOut0 (hIn0, dIn0) (hOut0, dOut0)
              ((hInRest.zip dInRest).zip (hOutRest.zip dOutRest))).1.map Prod.fst) = _
            rw [heq, List.map_map]
            rfl
          · show ((collaborativeParallelAxesReduceLoop dIn0 dOut0 (hIn0, dIn0) (hOut0, dOut0)
              ((hInRest.zip dInRest).zip (hOutRest.zip dOutRest))).1.map Prod.snd) = _
            rw [heq, List.map_map]
            rfl
          · show ((collaborativeParallelAxesReduceLoop dIn0 dOut0 (hIn0, dIn0) (hOut0, dOut0)
              ((hInRest.zip dInRest).zip (hOutRest.zip dOutRest))).2.map Prod.fst) = _
            rw [heq, List.map_map]
            rfl
          · show ((collaborativeParallelAxesReduceLoop dIn0 dOut0 (hIn0, dIn0) (hOut0, dOut0)
              ((hInRest.zip dInRest).zip (hOutRest.zip dOutRest))).2.map Prod.snd) = _
            rw [heq, List.map_map]
            rfl

/-- On an axis list with no two adjacent equal annotations, the
independent-reduction loop never merges: it returns its input unchanged. -/
theorem parallelAxesReduceLoop_id (rest : List (Nat × SbpParallel)) :
    ∀ (d : SbpParallel) (h : Nat),
      sbpIrreducible (d :: rest.map Prod.snd) = true →
      parallelAxesReduceLoop d (h, d) rest = (h, d) :: rest := by
  induction rest with
  | nil =>
    intro d h _
    rfl
  | cons x tl ih =>
    obtain ⟨h1, d1⟩ := x
    intro d h hirr
    simp only [List.map_cons, sbpIrreducible] at hirr
    by_cases hdd : d = d1
    · rw [if_pos hdd] at hirr
      exact absurd hirr (by simp)
    · rw [if_neg hdd] at hirr
      have hne1 : ¬d1 = d := fun hx => hdd hx.symm
      have hstep : parallelAxesReduceLoop d (h, d) ((h1, d1) :: tl)
          = (h, d) :: parallelAxesReduceLoop d1 (h1, d1) tl := by
        simp [parallelAxesReduceLoop, hne1]
      rw [hstep, ih d1 h1 hirr]

/-- On a pair of axis lists where no position has both annotations repeating,
the collaborative loop never merges: both outputs are the inputs unchanged. -/
theorem collaborativeParallelAxesReduceLoop_id
    (rest : List ((Nat × SbpParallel) × (Nat × SbpParallel))) :
    ∀ (dIn dOut : SbpParallel) (hIn hOut : Nat),
      collabIrreducible (dIn :: rest.map (fun x => x.1.2))
        (dOut :: rest.map (fun x => x.2.2)) = true →
      collaborativeParallelAxesReduceLoop dIn dOut (hIn, dIn) (hOut, dOut) rest
        = ((hIn, dIn) :: rest.map Prod.fst, (hOut, dOut) :: rest.map Prod.snd) := by
  induction rest with
  | nil =>
    intro dIn dOut hIn hOut _
    rfl
  | cons x tl ih =>
    obtain ⟨⟨hIn1, dIn1⟩, hOut1, dOut1⟩ := x
    intro dIn dOut hIn hOut hirr
    simp only [List.map_cons, collabIrreducible] at hirr
    by_cases hdd : dIn = dIn1 ∧ dOut = dOut1
    · rw [if_pos hdd] at hirr
      exact absurd hirr (by simp)
    · rw [if_neg hdd] at hirr
      have hne1 : ¬(dIn1 = dIn ∧ dOut1 = dOut) := by
        intro hcontra
        exact hdd ⟨hcontra.1.symm, hcontra.2.symm⟩
      have hstep : collaborativeParallelAxesReduceLoop dIn dOut (hIn, dIn) (hOut, dOut)
          ((((hIn1, dIn1), (hOut1, dOut1))) :: tl)
          = ((hIn, dIn) ::
              (collaborativeParallelAxesReduceLoop dIn1 dOut1
                (hIn1, dIn1) (hOut1, dOut1) tl).1,
             (hOut, dOut) ::
              (collaborativeParallelAxesReduceLoop dIn1 dOut1
                (hIn1, dIn1) (hOut1, dOut1) tl).2) := by
        simp [collaborativeParallelAxesReduceLoop, hne1]
      rw [hstep, ih dIn1 dOut1 hIn1 hOut1 hirr]
      rfl

/-- An already-reduced side (no two adjacent annotations equal) is a fixed
point of `ParallelAxesReduce`. -/
theorem ParallelAxesReduce_id (parallel_desc : ParallelDesc)
    (parallel_distribution : ParallelDistribution)
    (hne : parallel_desc.hierarchy ≠ [])
    (hlen : parallel_distribution.length = parallel_desc.hierarchy.length)
    (hirr : sbpIrreducible parallel_distribution = true) :
    ParallelAxesReduce parallel_desc parallel_distribution
      = (parallel_desc, parallel_distribution) := by
  obtain ⟨⟨tag, names, hier⟩⟩ := parallel_desc
  cases hier with
  | nil => exact absurd rfl hne
  | cons h0 hrest =>
    cases parallel_distribution with
    | nil => simp [ParallelDesc.hierarchy] at hlen
    | cons d0 drest =>
      have hlen' : drest.length = hrest.length := by
        simpa [ParallelDesc.hierarchy] using hlen
      have hsnd : (hrest.zip drest).map Prod.snd = drest :=
        List.map_snd_zip hrest drest (le_of_eq hlen')
      have hfst : (hrest.zip drest).map Prod.fst = hrest :=
        List.map_fst_zip hrest drest (le_of_eq hlen'.symm)
      have hloop := parallelAxesReduceLoop_id (hrest.zip drest) d0 h0
        (by rw [hsnd]; exact hirr)
      simp only [ParallelAxesReduce, ParallelDesc.hierarchy]
      rw [hloop]
      simp only [List.map_cons, hfst, hsnd]

/-- An already-reduced pair (no position where both sides' annotations repeat)
is a fixed point of `CollaborativeParallelAxesReduce`. -/
theorem CollaborativeParallelAxesReduce_id
    (in_parallel_desc out_parallel_desc : ParallelDesc)
    (in_parallel_distribution out_parallel_distribution : ParallelDistribution)
    (hrank : in_parallel_desc.hierarchy.length = out_parallel_desc.hierarchy.length)
    (hne : in_parallel_desc.hierarchy ≠ [])
    (hlenIn : in_parallel_distribution.length = in_parallel_desc.hierarchy.length)
    (hlenOut : out_parallel_distribution.length = out_parallel_desc.hierarchy.length)
    (hirr : collabIrreducible in_parallel_distribution out_parallel_distribution = true) :
    CollaborativeParallelAxesReduce in_parallel_desc out_parallel_desc
        in_parallel_distribution out_parallel_distribution
      = ((in_parallel_desc, in_parallel_distribution),
         (out_parallel_desc, out_parallel_distribution)) := by
  obtain ⟨⟨tagIn, namesIn, hierIn⟩⟩ := in_parallel_desc
  obtain ⟨⟨tagOut, namesOut, hierOut⟩⟩ := out_parallel_desc
  cases hierIn with
  | nil => exact absurd rfl hne
  | cons hIn0 hInRest =>
    cases hierOut with
    | nil => simp [ParallelDesc.hierarchy] at hrank
    | cons hOut0 hOutRest =>
      cases in_parallel_distribution with
      | nil => simp [ParallelDesc.hierarchy] at hlenIn
      | cons dIn0 dInRest =>
        cases out_parallel_distribution with
        | nil => simp [ParallelDesc.hierarchy] at hlenOut
        | cons dOut0 dOutRest =>
          have hrank' : hInRest.length = hOutRest.length := by
            simpa [ParallelDesc.hierarchy] using hrank
          have hlenIn' : dInRest.length = hInRest.length := by
            simpa [ParallelDesc.hierarchy] using hlenIn
          have hlenOut' : dOutRest.length = hOutRest.length := by
            simpa [ParallelDesc.hierarchy] using hlenOut
          have hzlen : (hInRest.zip dInRest).length = (hOutRest.zip dOutRest).length := by
            simp [List.length_zip, hlenIn', hlenOut', hrank']
          have hfstz : ((hInRest.zip dInRest).zip (hOutRest.zip dOutRest)).map Prod.fst
              = hInRest.zip dInRest :=
            List.map_fst_zip _ _ (le_of_eq hzlen)
          have hsndz : ((hInRest.zip dInRest).zip (hOutRest.zip dOutRest)).map Prod.snd
              = hOutRest.zip dOutRest :=
            List.map_snd_zip _ _ (le_of_eq hzlen.symm)
          have hinAnn : (((hInRest.zip dInRest).zip (hOutRest.zip dOutRest)).map
              (fun x => x.1.2)) = dInRest := by
            have h1 : (((hInRest.zip dInRest).zip (hOutRest.zip dOutRest)).map
                (fun x => x.1.2)) = (((hInRest.zip dInRest).zip
                  (hOutRest.zip dOutRest)).map Prod.fst).map Prod.snd := by
              rw [List.map_map]
              rfl
            rw [h1, hfstz]
            exact List.map_snd_zip hInRest dInRest (le_of_eq hlenIn')
          have houtAnn : (((hInRest.zip dInRest).zip (hOutRest.zip dOutRest)).map
              (fun x => x.2.2)) = dOutRest := by
            have h1 : (((hInRest.zip dInRest).zip (hOutRest.zip dOutRest)).map
                (fun x => x.2.2)) = (((hInRest.zip dInRest).zip
                  (hOutRest.zip dOutRest)).map Prod.snd).map Prod.snd := by
              rw [List.map_map]
              rfl
            rw [h1, hsndz]
            exact List.map_snd_zip hOutRest dOutRest (le_of_eq hlenOut')
          have hloop := collaborativeParallelAxesReduceLoop_id
            ((hInRest.zip dInRest).zip (hOutRest.zip dOutRest)) dIn0 dOut0 hIn0 hOut0
            (by rw [hinAnn, houtAnn]; exact hirr)
          simp only [CollaborativeParallelAxesReduce, ParallelDesc.hierarchy]
          rw [hloop]
          simp only [List.map_cons, hfstz, hsndz,
            List.map_fst_zip hInRest dInRest (le_of_eq hlenIn'.symm),
            List.map_snd_zip hInRest dInRest (le_of_eq hlenIn'),
            List.map_fst_zip hOutRest dOutRest (le_of_eq hlenOut'.symm),
            List.map_snd_zip hOutRest dOutRest (le_of_eq hlenOut')]

/-- Grouping preserves products: the product of per-group products is the
product over the flattened list. -/
theorem blocks_prod {α : Type} (f : α → Nat) (blocks : List (List α)) :
    (blocks.map (fun b => (b.map f).prod)).prod = (blocks.flatten.map f).prod := by
  induction blocks with
  | nil => rfl
  | cons b bs ih =>
    simp [List.flatten_cons, List.map_append, List.prod_append, ih]

/-- Expanding each group's shared label by the group's length reconstructs the
labels of the flattened list. -/
theorem blocks_replicate {α β : Type} [Inhabited α] (g : α → β)
    (blocks : List (List α))
    (hconst : ∀ b ∈ blocks, b ≠ [] ∧ ∀ x ∈ b, g x = g b.headI) :
    (List.zipWith List.replicate (blocks.map List.length)
      (blocks.map (fun b => g b.headI))).flatten
      = blocks.flatten.map g := by
  induction blocks with
  | nil => rfl
  | cons b bs ih =>
    obtain ⟨hbne, hbc⟩ := hconst b (List.mem_cons_self b bs)
    have hb : b.map g = List.replicate b.length (g b.headI) := by
      rw [List.eq_replicate_iff]
      refine ⟨by simp, ?_⟩
      intro y hy
      obtain ⟨x, hx, hxy⟩ := List.mem_map.mp hy
      rw [← hxy]
      exact hbc x hx
    have hrest : ∀ b' ∈ bs, b' ≠ [] ∧ ∀ x ∈ b', g x = g b'.headI :=
      fun b' hb' => hconst b' (List.mem_cons_of_mem _ hb')
    simp only [List.map_cons, List.zipWith_cons_cons, List.flatten_cons,
      List.map_append, ih hrest, hb]

/-- Claim C3: independent reduction, scanning axes left to right from axis 0,
merges axis `i` into the current group iff its annotation equals the
annotation of axis `i - 1`, and each merged output axis's extent is the
product of the extents merged into it.  Stated via run decompositions: the
groups formed are exactly the maximal runs of equal annotations (nonempty,
constant within each group, adjacent groups differing — that is, merged iff
the annotation repeats), the reduced hierarchy is the per-group extent
products, and the reduced distribution is the per-group annotations. -/
theorem C3_parallelAxesReduce_merges_maximal_runs
    (parallel_desc : ParallelDesc) (parallel_distribution : ParallelDistribution)
    (hne : parallel_desc.hierarchy ≠ [])
    (hlen : parallel_distribution.length = parallel_desc.hierarchy.length) :
    ∃ blocks,
      IsRunDecomposition (parallel_desc.hierarchy.zip parallel_distribution) blocks ∧
      (ParallelAxesReduce parallel_desc parallel_distribution).1.hierarchy
        = blocks.map (fun b => (b.map Prod.fst).prod) ∧
      (ParallelAxesReduce parallel_desc parallel_distribution).2
        = blocks.map blockAnn :=
  ParallelAxesReduce_runs parallel_desc parallel_distribution hne hlen

/-- Witness for C3 at hierarchy `[2, 2]` with annotations
`[Split(0), Split(0)]`. -/
theorem C3_witness :
    desc22.hierarchy ≠ [] ∧ distSS.length = desc22.hierarchy.length ∧
    ∃ blocks,
      IsRunDecomposition (desc22.hierarchy.zip distSS) blocks ∧
      (ParallelAxesReduce desc22 distSS).1.hierarchy
        = blocks.map (fun b => (b.map Prod.fst).prod) ∧
      (ParallelAxesReduce desc22 distSS).2 = blocks.map blockAnn :=
  ⟨by decide, by decide,
   C3_parallelAxesReduce_merges_maximal_runs desc22 distSS (by decide) (by decide)⟩

/-- Claim C4: collaborative reduction of equal-rank producer/consumer
hierarchies merges axis `i` iff both sides' annotations repeat at `i`,
otherwise both sides start a new group at that position (stated as one joint
run decomposition shared by both sides), and consequently the two reduced
hierarchies have equal rank. -/
theorem C4_collaborativeParallelAxesReduce_joint_runs
    (in_parallel_desc out_parallel_desc : ParallelDesc)
    (in_parallel_distribution out_parallel_distribution : ParallelDistribution)
    (hrank : in_parallel_desc.hierarchy.length = out_parallel_desc.hierarchy.length)
    (hne : in_parallel_desc.hierarchy ≠ [])
    (hlenIn : in_parallel_distribution.length = in_parallel_desc.hierarchy.length)
    (hlenOut : out_parallel_distribution.length = out_parallel_desc.hierarchy.length) :
    (∃ blocks,
      IsJointRunDecomposition
        ((in_parallel_desc.hierarchy.zip in_parallel_distribution).zip
          (out_parallel_desc.hierarchy.zip out_parallel_distribution)) blocks ∧
      (CollaborativeParallelAxesReduce in_parallel_desc out_parallel_desc
        in_parallel_distribution out_parallel_distribution).1.1.hierarchy
        = blocks.map (fun b => (b.map (fun x => x.1.1)).prod) ∧
      (CollaborativeParallelAxesReduce in_parallel_desc out_parallel_desc
        in_parallel_distribution out_parallel_distribution).1.2
        = blocks.map (fun b => (jointAnn b).1) ∧
      (CollaborativeParallelAxesReduce in_parallel_desc out_parallel_desc
        in_parallel_distribution out_parallel_distribution).2.1.hierarchy
        = blocks.map (fun b => (b.map (fun x => x.2.1)).prod) ∧
      (CollaborativeParallelAxesReduce in_parallel_desc out_parallel_desc
        in_parallel_distribution out_parallel_distribution).2.2
        = blocks.map (fun b => (jointAnn b).2)) ∧
    (CollaborativeParallelAxesReduce in_parallel_desc out_parallel_desc
        in_parallel_distribution out_parallel_distribution).1.1.hierarchy.length
      = (CollaborativeParallelAxesReduce in_parallel_desc out_parallel_desc
          in_parallel_distribution out_parallel_distribution).2.1.hierarchy.length := by
  obtain ⟨blocks, hdec, hin1, hin2, hout1, hout2⟩ :=
    CollaborativeParallelAxesReduce_runs in_parallel_desc out_parallel_desc
      in_parallel_distribution out_parallel_distribution hrank hne hlenIn hlenOut
  refine ⟨⟨blocks, hdec, hin1, hin2, hout1, hout2⟩, ?_⟩
  rw [hin1, hout1]
  simp [List.length_map]

/-- Witness for C4 at producer `[2, 2]` with `[Split(0), Broadcast]` and
consumer `[2, 2]` with `[Broadcast, Split(0)]`. -/
theorem C4_witness :
    desc22.hierarchy.length = desc22.hierarchy.length ∧
    desc22.hierarchy ≠ [] ∧
    distSB.length = desc22.hierarchy.length ∧
    distBS.length = desc22.hierarchy.length ∧
    ((∃ blocks,
      IsJointRunDecomposition
        ((desc22.hierarchy.zip distSB).zip (desc22.hierarchy.zip distBS)) blocks ∧
      (CollaborativeParallelAxesReduce desc22 desc22 distSB distBS).1.1.hierarchy
        = blocks.map (fun b => (b.map (fun x => x.1.1)).prod) ∧
      (CollaborativeParallelAxesReduce desc22 desc22 distSB distBS).1.2
        = blocks.map (fun b => (jointAnn b).1) ∧
      (CollaborativeParallelAxesReduce desc22 desc22 distSB distBS).2.1.hierarchy
        = blocks.map (fun b => (b.map (fun x => x.2.1)).prod) ∧
      (CollaborativeParallelAxesReduce desc22 desc22 distSB distBS).2.2
        = blocks.map (fun b => (jointAnn b).2)) ∧
    (CollaborativeParallelAxesReduce desc22 desc22 distSB distBS).1.1.hierarchy.length
      = (CollaborativeParallelAxesReduce desc22 desc22 distSB distBS).2.1.hierarchy.length) :=
  ⟨rfl, by decide, by decide, by decide,
   C4_collaborativeParallelAxesReduce_joint_runs desc22 desc22 distSB distBS
     rfl (by decide) (by decide) (by decide)⟩

/-- Claim C5: the constructor assembles the chain once, in the fixed order
one-to-one, B21, collective boxing, slice boxing, naive B2B, naive B2P, and
the collective boxing builder is present iff the construction-time
`nccl_use_compute_stream` flag is false. -/
theorem C5_constructor_chain :
    (HierarchicalSubTskGphBuilder.init false).sub_tsk_gph_builder_
      = [SubTskGphBuilderKind.oneToOne, SubTskGphBuilderKind.b21,
         SubTskGphBuilderKind.collectiveBoxing, SubTskGphBuilderKind.sliceBoxing,
         SubTskGphBuilderKind.naiveB2B, SubTskGphBuilderKind.naiveB2P] ∧
    (HierarchicalSubTskGphBuilder.init true).sub_tsk_gph_builder_
      = [SubTskGphBuilderKind.oneToOne, SubTskGphBuilderKind.b21,
         SubTskGphBuilderKind.sliceBoxing, SubTskGphBuilderKind.naiveB2B,
         SubTskGphBuilderKind.naiveB2P] ∧
    (∀ nccl_use_compute_stream : Bool,
      SubTskGphBuilderKind.collectiveBoxing
          ∈ (HierarchicalSubTskGphBuilder.init
              nccl_use_compute_stream).sub_tsk_gph_builder_
        ↔ nccl_use_compute_stream = false) := by
  refine ⟨rfl, rfl, ?_⟩
  intro b
  cases b <;> decide

/-- Claim C9: `InOutParallelAxesReduce` returns the inputs unchanged when both
hierarchies have rank 1, reduces each side independently when the ranks
differ, and reduces collaboratively exactly when the ranks are equal and not
both 1. -/
theorem C9_InOutParallelAxesReduce_dispatch
    (in_parallel_desc out_parallel_desc : ParallelDesc)
    (in_parallel_distribution out_parallel_distribution : ParallelDistribution) :
    (in_parallel_desc.hierarchy.length = 1 ∧ out_parallel_desc.hierarchy.length = 1 →
      InOutParallelAxesReduce in_parallel_desc out_parallel_desc
          in_parallel_distribution out_parallel_distribution
        = ((in_parallel_desc, in_parallel_distribution),
           (out_parallel_desc, out_parallel_distribution))) ∧
    (in_parallel_desc.hierarchy.length ≠ out_parallel_desc.hierarchy.length →
      InOutParallelAxesReduce in_parallel_desc out_parallel_desc
          in_parallel_distribution out_parallel_distribution
        = (ParallelAxesReduce in_parallel_desc in_parallel_distribution,
           ParallelAxesReduce out_parallel_desc out_parallel_distribution)) ∧
    (in_parallel_desc.hierarchy.length = out_parallel_desc.hierarchy.length →
      ¬(in_parallel_desc.hierarchy.length = 1
          ∧ out_parallel_desc.hierarchy.length = 1) →
      InOutParallelAxesReduce in_parallel_desc out_parallel_desc
          in_parallel_distribution out_parallel_distribution
        = CollaborativeParallelAxesReduce in_parallel_desc out_parallel_desc
            in_parallel_distribution out_parallel_distribution) := by
  refine ⟨?_, ?_, ?_⟩
  · intro h
    simp [InOutParallelAxesReduce, h.1, h.2]
  · intro h
    have h11 : ¬(in_parallel_desc.hierarchy.length = 1
        ∧ out_parallel_desc.hierarchy.length = 1) :=
      fun hc => h (hc.1.trans hc.2.symm)
    simp [InOutParallelAxesReduce, h11, h]
  · intro heq h11
    have hne2 : ¬(in_parallel_desc.hierarchy.length
        ≠ out_parallel_desc.hierarchy.length) :=
      fun hneq => hneq heq
    simp only [InOutParallelAxesReduce]
    rw [if_neg h11, if_neg hne2]

/-- Witness for C9, exercising the rank-1 branch at two single-axis
placements and the collaborative branch at two rank-2 placements. -/
theorem C9_witness :
    ((desc4.hierarchy.length = 1 ∧ desc4.hierarchy.length = 1) ∧
      InOutParallelAxesReduce desc4 desc4 [SbpParallel.broadcast] [SbpParallel.broadcast]
        = ((desc4, [SbpParallel.broadcast]), (desc4, [SbpParallel.broadcast]))) ∧
    (InOutParallelAxesReduce desc22 desc22 distSB distBS
        = CollaborativeParallelAxesReduce desc22 desc22 distSB distBS) :=
  ⟨⟨⟨rfl, rfl⟩, (C9_InOutParallelAxesReduce_dispatch desc4 desc4
      [SbpParallel.broadcast] [SbpParallel.broadcast]).1 ⟨rfl, rfl⟩⟩,
   (C9_InOutParallelAxesReduce_dispatch desc22 desc22 distSB distBS).2.2
     rfl (by decide)⟩

/-- Claim C10: both reducers change only the hierarchy of the parallel
configuration: the device tag and the device name list (the physical device
set identity) of every returned descriptor equal those of the corresponding
input descriptor. -/
theorem C10_reduce_frame
    (parallel_desc : ParallelDesc) (parallel_distribution : ParallelDistribution)
    (in_parallel_desc out_parallel_desc : ParallelDesc)
    (in_parallel_distribution out_parallel_distribution : ParallelDistribution) :
    ((ParallelAxesReduce parallel_desc parallel_distribution).1.parallel_conf.device_tag
        = parallel_desc.parallel_conf.device_tag ∧
     (ParallelAxesReduce parallel_desc parallel_distribution).1.parallel_conf.device_name
        = parallel_desc.parallel_conf.device_name) ∧
    ((CollaborativeParallelAxesReduce in_parallel_desc out_parallel_desc
        in_parallel_distribution out_parallel_distribution).1.1.parallel_conf.device_tag
        = in_parallel_desc.parallel_conf.device_tag ∧
     (CollaborativeParallelAxesReduce in_parallel_desc out_parallel_desc
        in_parallel_distribution out_parallel_distribution).1.1.parallel_conf.device_name
        = in_parallel_desc.parallel_conf.device_name ∧
     (CollaborativeParallelAxesReduce in_parallel_desc out_parallel_desc
        in_parallel_distribution out_parallel_distribution).2.1.parallel_conf.device_tag
        = out_parallel_desc.parallel_conf.device_tag ∧
     (CollaborativeParallelAxesReduce in_parallel_desc out_parallel_desc
        in_parallel_distribution out_parallel_distribution).2.1.parallel_conf.device_name
        = out_parallel_desc.parallel_conf.device_name) := by
  constructor
  · obtain ⟨⟨tag, names, hier⟩⟩ := parallel_desc
    cases hier with
    | nil => exact ⟨rfl, rfl⟩
    | cons h0 hrest =>
      cases parallel_distribution with
      | nil => exact ⟨rfl, rfl⟩
      | cons d0 drest => exact ⟨rfl, rfl⟩
  · obtain ⟨⟨tagIn, namesIn, hierIn⟩⟩ := in_parallel_desc
    obtain ⟨⟨tagOut, namesOut, hierOut⟩⟩ := out_parallel_desc
    cases hierIn with
    | nil => exact ⟨rfl, rfl, rfl, rfl⟩
    | cons hIn0 hInRest =>
      cases hierOut with
      | nil => exact ⟨rfl, rfl, rfl, rfl⟩
      | cons hOut0 hOutRest =>
        cases in_parallel_distribution with
        | nil => exact ⟨rfl, rfl, rfl, rfl⟩
        | cons dIn0 dInRest =>
          cases out_parallel_distribution with
          | nil => exact ⟨rfl, rfl, rfl, rfl⟩
          | cons dOut0 dOutRest => exact ⟨rfl, rfl, rfl, rfl⟩

/-- Claim C8: reduction is idempotent.  If the input pair is already reduced
under the applicable rule (the collaborative no-merge condition when the ranks
are equal, the per-side independent no-merge condition when they differ),
`InOutParallelAxesReduce` returns the four inputs unchanged. -/
theorem C8_reduction_idempotent
    (in_parallel_desc out_parallel_desc : ParallelDesc)
    (in_parallel_distribution out_parallel_distribution : ParallelDistribution)
    (hneIn : in_parallel_desc.hierarchy ≠ [])
    (hneOut : out_parallel_desc.hierarchy ≠ [])
    (hlenIn : in_parallel_distribution.length = in_parallel_desc.hierarchy.length)
    (hlenOut : out_parallel_distribution.length = out_parallel_desc.hierarchy.length)
    (hirr : if in_parallel_desc.hierarchy.length = out_parallel_desc.hierarchy.length
      then collabIrreducible in_parallel_distribution out_parallel_distribution = true
      else sbpIrreducible in_parallel_distribution = true
        ∧ sbpIrreducible out_parallel_distribution = true) :
    InOutParallelAxesReduce in_parallel_desc out_parallel_desc
        in_parallel_distribution out_parallel_distribution
      = ((in_parallel_desc, in_parallel_distribution),
         (out_parallel_desc, out_parallel_distribution)) := by
  by_cases h11 : in_parallel_desc.hierarchy.length = 1
      ∧ out_parallel_desc.hierarchy.length = 1
  · simp [InOutParallelAxesReduce, h11.1, h11.2]
  · by_cases heq : in_parallel_desc.hierarchy.length
        = out_parallel_desc.hierarchy.length
    · rw [if_pos heq] at hirr
      have hdisp : InOutParallelAxesReduce in_parallel_desc out_parallel_desc
          in_parallel_distribution out_parallel_distribution
          = CollaborativeParallelAxesReduce in_parallel_desc out_parallel_desc
              in_parallel_distribution out_parallel_distribution := by
        simp only [InOutParallelAxesReduce]
        rw [if_neg h11, if_neg (fun hneq => hneq heq)]
      rw [hdisp]
      exact CollaborativeParallelAxesReduce_id in_parallel_desc out_parallel_desc
        in_parallel_distribution out_parallel_distribution heq hneIn hlenIn hlenOut hirr
    · rw [if_neg heq] at hirr
      have hdisp : InOutParallelAxesReduce in_parallel_desc out_parallel_desc
          in_parallel_distribution out_parallel_distribution
          = (ParallelAxesReduce in_parallel_desc in_parallel_distribution,
             ParallelAxesReduce out_parallel_desc out_parallel_distribution) := by
        simp only [InOutParallelAxesReduce]
        rw [if_neg h11, if_pos heq]
      rw [hdisp,
        ParallelAxesReduce_id in_parallel_desc in_parallel_distribution
          hneIn hlenIn hirr.1,
        ParallelAxesReduce_id out_parallel_desc out_parallel_distribution
          hneOut hlenOut hirr.2]

/-- Witness for C8: rank-1 producer `[4]` with `[Broadcast]` against rank-2
consumer `[2, 2]` with `[Split(0), Broadcast]`, both sides independently
irreducible. -/
theorem C8_witness :
    desc4.hierarchy ≠ [] ∧ desc22.hierarchy ≠ [] ∧
    ([SbpParallel.broadcast] : ParallelDistribution).length = desc4.hierarchy.length ∧
    distSB.length = desc22.hierarchy.length ∧
    (if desc4.hierarchy.length = desc22.hierarchy.length
      then collabIrreducible [SbpParallel.broadcast] distSB = true
      else sbpIrreducible [SbpParallel.broadcast] = true
        ∧ sbpIrreducible distSB = true) ∧
    InOutParallelAxesReduce desc4 desc22 [SbpParallel.broadcast] distSB
      = ((desc4, [SbpParallel.broadcast]), (desc22, distSB)) :=
  ⟨by decide, by decide, by decide, by decide, by decide,
   C8_reduction_idempotent desc4 desc22 [SbpParallel.broadcast] distSB
     (by decide) (by decide) (by decide) (by decide) (by decide)⟩

/-- Claim C7: for every hierarchy with annotations (and for both reduction
modes), the reduced hierarchy's extent product equals the original's, and
expanding each reduced annotation by the length of the original-axis run it
absorbed reconstructs the original per-axis annotation sequence. -/
theorem C7_reduction_correctness
    (parallel_desc : ParallelDesc) (parallel_distribution : ParallelDistribution)
    (in_parallel_desc out_parallel_desc : ParallelDesc)
    (in_parallel_distribution out_parallel_distribution : ParallelDistribution)
    (hne : parallel_desc.hierarchy ≠ [])
    (hlen : parallel_distribution.length = parallel_desc.hierarchy.length)
    (hrank : in_parallel_desc.hierarchy.length = out_parallel_desc.hierarchy.length)
    (hneIn : in_parallel_desc.hierarchy ≠ [])
    (hlenIn : in_parallel_distribution.length = in_parallel_desc.hierarchy.length)
    (hlenOut : out_parallel_distribution.length = out_parallel_desc.hierarchy.length) :
    ((ParallelAxesReduce parallel_desc parallel_distribution).1.hierarchy.prod
        = parallel_desc.hierarchy.prod ∧
     (∃ ks : List Nat,
       ks.length = (ParallelAxesReduce parallel_desc parallel_distribution).2.length ∧
       (∀ k ∈ ks, 1 ≤ k) ∧
       (List.zipWith List.replicate ks
         (ParallelAxesReduce parallel_desc parallel_distribution).2).flatten
         = parallel_distribution)) ∧
    ((CollaborativeParallelAxesReduce in_parallel_desc out_parallel_desc
        in_parallel_distribution out_parallel_distribution).1.1.hierarchy.prod
        = in_parallel_desc.hierarchy.prod ∧
     (CollaborativeParallelAxesReduce in_parallel_desc out_parallel_desc
        in_parallel_distribution out_parallel_distribution).2.1.hierarchy.prod
        = out_parallel_desc.hierarchy.prod ∧
     (∃ ks : List Nat,
       ks.length = (CollaborativeParallelAxesReduce in_parallel_desc out_parallel_desc
         in_parallel_distribution out_parallel_distribution).1.2.length ∧
       (∀ k ∈ ks, 1 ≤ k) ∧
       (List.zipWith List.replicate ks
         (CollaborativeParallelAxesReduce in_parallel_desc out_parallel_desc
           in_parallel_distribution out_parallel_distribution).1.2).flatten
         = in_parallel_distribution ∧
       (List.zipWith List.replicate ks
         (CollaborativeParallelAxesReduce in_parallel_desc out_parallel_desc
           in_parallel_distribution out_parallel_distribution).2.2).flatten
         = out_parallel_distribution)) := by
  constructor
  · obtain ⟨blocks, ⟨hflat, hconst, hchain⟩, hH, hD⟩ :=
      ParallelAxesReduce_runs parallel_desc parallel_distribution hne hlen
    constructor
    · rw [hH, blocks_prod Prod.fst blocks, hflat,
        List.map_fst_zip _ _ (le_of_eq hlen.symm)]
    · refine ⟨blocks.map List.length, ?_, ?_, ?_⟩
      · rw [hD]
        simp [List.length_map]
      · intro k hk
        obtain ⟨b, hb, hbk⟩ := List.mem_map.mp hk
        rw [← hbk]
        exact Nat.one_le_iff_ne_zero.mpr
          (fun hz => (hconst b hb).1 (List.eq_nil_of_length_eq_zero hz))
      · rw [hD]
        have hconst' : ∀ b ∈ blocks, b ≠ [] ∧ ∀ x ∈ b, Prod.snd x = Prod.snd b.headI :=
          hconst
        have h3 : blocks.map blockAnn
            = blocks.map (fun b => Prod.snd b.headI) := rfl
        rw [h3, blocks_replicate Prod.snd blocks hconst', hflat]
        exact List.map_snd_zip _ _ (le_of_eq hlen)
  · obtain ⟨blocks, ⟨hflat, hconst, hchain⟩, hInH, hInD, hOutH, hOutD⟩ :=
      CollaborativeParallelAxesReduce_runs in_parallel_desc out_parallel_desc
        in_parallel_distribution out_parallel_distribution hrank hneIn hlenIn hlenOut
    have hz1 : (in_parallel_desc.hierarchy.zip in_parallel_distribution).length
        = (out_parallel_desc.hierarchy.zip out_parallel_distribution).length := by
      simp [List.length_zip, hlenIn, hlenOut, hrank]
    have hmapfst : ((in_parallel_desc.hierarchy.zip in_parallel_distribution).zip
        (out_parallel_desc.hierarchy.zip out_parallel_distribution)).map Prod.fst
        = in_parallel_desc.hierarchy.zip in_parallel_distribution :=
      List.map_fst_zip _ _ (le_of_eq hz1)
    have hmapsnd : ((in_parallel_desc.hierarchy.zip in_parallel_distribution).zip
        (out_parallel_desc.hierarchy.zip out_parallel_distribution)).map Prod.snd
        = out_parallel_desc.hierarchy.zip out_parallel_distribution :=
      List.map_snd_zip _ _ (le_of_eq hz1.symm)
    have hInExt : (((in_parallel_desc.hierarchy.zip in_parallel_distribution).zip
        (out_parallel_desc.hierarchy.zip out_parallel_distribution)).map
          (fun x => x.1.1)) = in_parallel_desc.hierarchy := by
      have h1 : (((in_parallel_desc.hierarchy.zip in_parallel_distribution).zip
          (out_parallel_desc.hierarchy.zip out_parallel_distribution)).map
            (fun x => x.1.1))
          = (((in_parallel_desc.hierarchy.zip in_parallel_distribution).zip
              (out_parallel_desc.hierarchy.zip out_parallel_distribution)).map
                Prod.fst).map Prod.fst := by
        rw [List.map_map]
        rfl
      rw [h1, hmapfst]
      exact List.map_fst_zip _ _ (le_of_eq hlenIn.symm)
    have hOutExt : (((in_parallel_desc.hierarchy.zip in_parallel_distribution).zip
        (out_parallel_desc.hierarchy.zip out_parallel_distribution)).map
          (fun x => x.2.1)) = out_parallel_desc.hierarchy := by
      have h1 : (((in_parallel_desc.hierarchy.zip in_parallel_distribution).zip
          (out_parallel_desc.hierarchy.zip out_parallel_distribution)).map
            (fun x => x.2.1))
          = (((in_parallel_desc.hierarchy.zip in_parallel_distribution).zip
              (out_parallel_desc.hierarchy.zip out_parallel_distribution)).map
                Prod.snd).map Prod.fst := by
        rw [List.map_map]
        rfl
      rw [h1, hmapsnd]
      exact List.map_fst_zip _ _ (le_of_eq hlenOut.symm)
    have hInAnn : (((in_parallel_desc.hierarchy.zip in_parallel_distribution).zip
        (out_parallel_desc.hierarchy.zip out_parallel_distribution)).map
          (fun x => x.1.2)) = in_parallel_distribution := by
      have h1 : (((in_parallel_desc.hierarchy.zip in_parallel_distribution).zip
          (out_parallel_desc.hierarchy.zip out_parallel_distribution)).map
            (fun x => x.1.2))
          = (((in_parallel_desc.hierarchy.zip in_parallel_distribution).zip
              (out_parallel_desc.hierarchy.zip out_parallel_distribution)).map
                Prod.fst).map Prod.snd := by
        rw [List.map_map]
        rfl
      rw [h1, hmapfst]
      exact List.map_snd_zip _ _ (le_of_eq hlenIn)
    have hOutAnn : (((in_parallel_desc.hierarchy.zip in_parallel_distribution).zip
        (out_parallel_desc.hierarchy.zip out_parallel_distribution)).map
          (fun x => x.2.2)) = out_parallel_distribution := by
      have h1 : (((in_parallel_desc.hierarchy.zip in_parallel_distribution).zip
          (out_parallel_desc.hierarchy.zip out_parallel_distribution)).map
            (fun x => x.2.2))
          = (((in_parallel_desc.hierarchy.zip in_parallel_distribution).zip
              (out_parallel_desc.hierarchy.zip out_parallel_distribution)).map
                Prod.snd).map Prod.snd := by
        rw [List.map_map]
        rfl
      rw [h1, hmapsnd]
      exact List.map_snd_zip _ _ (le_of_eq hlenOut)
    refine ⟨?_, ?_, blocks.map List.length, ?_, ?_, ?_, ?_⟩
    · rw [hInH, blocks_prod (fun x => x.1.1) blocks, hflat, hInExt]
    · rw [hOutH, blocks_prod (fun x => x.2.1) blocks, hflat, hOutExt]
    · rw [hInD]
      simp [List.length_map]
    · intro k hk
      obtain ⟨b, hb, hbk⟩ := List.mem_map.mp hk
      rw [← hbk]
      exact Nat.one_le_iff_ne_zero.mpr
        (fun hz => (hconst b hb).1 (List.eq_nil_of_length_eq_zero hz))
    · rw [hInD]
      have hconstIn : ∀ b ∈ blocks, b ≠ []
          ∧ ∀ x ∈ b, (fun x => x.1.2) x = (fun x => x.1.2) b.headI := by
        intro b hb
        obtain ⟨hbne, hbc⟩ := hconst b hb
        refine ⟨hbne, fun x hx => ?_⟩
        have hpair := hbc x hx
        rw [Prod.mk.injEq] at hpair
        exact hpair.1
      have h3 : blocks.map (fun b => (jointAnn b).1)
          = blocks.map (fun b => (fun x => x.1.2) b.headI) := rfl
      rw [h3, blocks_replicate (fun x => x.1.2) blocks hconstIn, hflat]
      exact hInAnn
    · rw [hOutD]
      have hconstOut : ∀ b ∈ blocks, b ≠ []
          ∧ ∀ x ∈ b, (fun x => x.2.2) x = (fun x => x.2.2) b.headI := by
        intro b hb
        obtain ⟨hbne, hbc⟩ := hconst b hb
        refine ⟨hbne, fun x hx => ?_⟩
        have hpair := hbc x hx
        rw [Prod.mk.injEq] at hpair
        exact hpair.2
      have h3 : blocks.map (fun b => (jointAnn b).2)
          = blocks.map (fun b => (fun x => x.2.2) b.headI) := rfl
      rw [h3, blocks_replicate (fun x => x.2.2) blocks hconstOut, hflat]
      exact hOutAnn

/-- Witness for C7, with the independent part at hierarchy `[2, 2]`,
annotations `[Split(0), Split(0)]`, and the collaborative part at producer
`[2, 2]` with `[Split(0), Broadcast]` against consumer `[2, 2]` with
`[Broadcast, Split(0)]`. -/
theorem C7_witness :
    desc22.hierarchy ≠ [] ∧ distSS.length = desc22.hierarchy.length ∧
    desc22.hierarchy.length = desc22.hierarchy.length ∧
    distSB.length = desc22.hierarchy.length ∧
    distBS.length = desc22.hierarchy.length ∧
    (((ParallelAxesReduce desc22 distSS).1.hierarchy.prod = desc22.hierarchy.prod ∧
      (∃ ks : List Nat,
        ks.length = (ParallelAxesReduce desc22 distSS).2.length ∧
        (∀ k ∈ ks, 1 ≤ k) ∧
        (List.zipWith List.replicate ks (ParallelAxesReduce desc22 distSS).2).flatten
          = distSS)) ∧
     ((CollaborativeParallelAxesReduce desc22 desc22 distSB distBS).1.1.hierarchy.prod
        = desc22.hierarchy.prod ∧
      (CollaborativeParallelAxesReduce desc22 desc22 distSB distBS).2.1.hierarchy.prod
        = desc22.hierarchy.prod ∧
      (∃ ks : List Nat,
        ks.length = (CollaborativeParallelAxesReduce desc22 desc22
          distSB distBS).1.2.length ∧
        (∀ k ∈ ks, 1 ≤ k) ∧
        (List.zipWith List.replicate ks
          (CollaborativeParallelAxesReduce desc22 desc22 distSB distBS).1.2).flatten
          = distSB ∧
        (List.zipWith List.replicate ks
          (CollaborativeParallelAxesReduce desc22 desc22 distSB distBS).2.2).flatten
          = distBS))) :=
  ⟨by decide, by decide, rfl, by decide, by decide,
   C7_reduction_correctness desc22 distSS desc22 desc22 distSB distBS
     (by decide) (by decide) rfl (by decide) (by decide) (by decide)⟩

/-- Claim C1 concerns the rank-greater-than-1 branch of
`HierarchicalSubTskGphBuilder::Build`.  In the source that branch executes
`UNIMPLEMENTED()` — a fatal check that aborts the process — so the dedicated
`return Error::BoxingNotSupportedError()` on the following line is
unreachable and no error status reaches the caller.  Evaluated at producer
hierarchy `[2, 2]` with `[Split(0), Broadcast]` against consumer hierarchy
`[2, 2]` with `[Broadcast, Split(0)]`: both reduced hierarchies keep rank 2
and `Build` ends in the fatal abort, not in the boxing-not-supported
status. -/
theorem C1_rank2_build_aborts :
    (InOutParallelAxesReduce desc22 desc22 distSB distBS).1.1.hierarchy.length = 2 ∧
    (InOutParallelAxesReduce desc22 desc22 distSB distBS).2.1.hierarchy.length = 2 ∧
    (HierarchicalSubTskGphBuilder.init false).Build desc22 desc22 distSB distBS
      = BuildResult.fatal ∧
    BuildResult.fatal ≠ BuildResult.boxingNotSupportedError := by
  decide

/-- Counterexample to claim C2 as stated: `Build` does not pass the reduced
placements to the chain.  At producer and consumer hierarchy `[2, 2]` with
annotations `[Split(0), Split(0)]` on both sides, the reduced placements have
hierarchy `[4]`, yet the delegated chain call records the original
placements, whose hierarchy is `[2, 2]` — the passed placement differs from
the reduced placement. -/
theorem C2_counterexample :
    (HierarchicalSubTskGphBuilder.init false).Build desc22 desc22 distSS distSS
      = BuildResult.delegated [SbpParallel.split 0] [SbpParallel.split 0]
          ⟨(HierarchicalSubTskGphBuilder.init false).sub_tsk_gph_builder_,
           desc22, desc22, SbpParallel.split 0, SbpParallel.split 0⟩ ∧
    (InOutParallelAxesReduce desc22 desc22 distSS distSS).1.1 ≠ desc22 ∧
    (InOutParallelAxesReduce desc22 desc22 distSS distSS).1.1.hierarchy = [4] ∧
    desc22.hierarchy = [2, 2] := by
  decide

/-- Claim C2 as amended: whenever both reduced hierarchies have rank 1,
`Build` delegates exactly once to the builder chain, passing the original
(unreduced) placements of both sides together with the reduced distributions,
and using the axis-0 annotation of each side's reduced distribution as the
rank-1 distribution pair. -/
theorem C2_build_delegates_once
    (builder : HierarchicalSubTskGphBuilder)
    (in_parallel_desc out_parallel_desc : ParallelDesc)
    (in_parallel_distribution out_parallel_distribution : ParallelDistribution)
    (h1 : (InOutParallelAxesReduce in_parallel_desc out_parallel_desc
      in_parallel_distribution out_parallel_distribution).1.1.hierarchy.length = 1)
    (h2 : (InOutParallelAxesReduce in_parallel_desc out_parallel_desc
      in_parallel_distribution out_parallel_distribution).2.1.hierarchy.length = 1) :
    builder.Build in_parallel_desc out_parallel_desc
        in_parallel_distribution out_parallel_distribution
      = BuildResult.delegated
          (InOutParallelAxesReduce in_parallel_desc out_parallel_desc
            in_parallel_distribution out_parallel_distribution).1.2
          (InOutParallelAxesReduce in_parallel_desc out_parallel_desc
            in_parallel_distribution out_parallel_distribution).2.2
          ⟨builder.sub_tsk_gph_builder_, in_parallel_desc, out_parallel_desc,
           (InOutParallelAxesReduce in_parallel_desc out_parallel_desc
             in_parallel_distribution out_parallel_distribution).1.2.headI,
           (InOutParallelAxesReduce in_parallel_desc out_parallel_desc
             in_parallel_distribution out_parallel_distribution).2.2.headI⟩ := by
  simp only [HierarchicalSubTskGphBuilder.Build, Build1dParallelHierarchySubTskGph]
  rw [if_pos ⟨h1, h2⟩]

/-- Witness for the amended C2 at producer and consumer hierarchy `[2, 2]`
with `[Split(0), Split(0)]` on both sides (reduced to `[4]`, `[Split(0)]`). -/
theorem C2_witness :
    (InOutParallelAxesReduce desc22 desc22 distSS distSS).1.1.hierarchy.length = 1 ∧
    (InOutParallelAxesReduce desc22 desc22 distSS distSS).2.1.hierarchy.length = 1 ∧
    (HierarchicalSubTskGphBuilder.init true).Build desc22 desc22 distSS distSS
      = BuildResult.delegated
          (InOutParallelAxesReduce desc22 desc22 distSS distSS).1.2
          (InOutParallelAxesReduce desc22 desc22 distSS distSS).2.2
          ⟨(HierarchicalSubTskGphBuilder.init true).sub_tsk_gph_builder_,
           desc22, desc22,
           (InOutParallelAxesReduce desc22 desc22 distSS distSS).1.2.headI,
           (InOutParallelAxesReduce desc22 desc22 distSS distSS).2.2.headI⟩ :=
  ⟨by decide, by decide,
   C2_build_delegates_once (HierarchicalSubTskGphBuilder.init true)
     desc22 desc22 distSS distSS (by decide) (by decide)⟩

/-- Claim C6: executing the unit invokes the compute-step bindings in exactly
their construction order (the invocation trace is indexed by the exec-sequence
position, so for bindings `[A, B]` the invocation of `A` precedes that of
`B`); each invocation uses the forward entry point iff the unit was
constructed with the forward flag; and each named operand slot resolves by
looking up the slot's register-descriptor id in the binding's map, resolving
that id through the caller-supplied resolver, querying the kernel for the
slot's tensor label, and returning that register's blob for that label. -/
theorem C6_ward_kernel_trace (Blob : Type)
    (GetKernelFromOpName : String → Kernel) (task_proto : TaskProto)
    (GetRegstFromRegstDescId : Nat → Regst Blob) :
    ((Actor.Init GetKernelFromOpName task_proto).WardKernel
        GetRegstFromRegstDescId).length = task_proto.exec_sequence.length ∧
    ∀ i : Nat,
      ((Actor.Init GetKernelFromOpName task_proto).WardKernel
          GetRegstFromRegstDescId)[i]?
        = (task_proto.exec_sequence[i]?).map (fun node =>
            ⟨GetKernelFromOpName node.op_name,
             if task_proto.is_forward then WardFunc.forward else WardFunc.backward,
             fun bn_in_op =>
               (node.bn_in_op2regst_desc_id.lookup bn_in_op).map
                 (fun regst_desc_id =>
                   (GetRegstFromRegstDescId regst_desc_id).GetBlobPtrFromLbn
                     ((GetKernelFromOpName node.op_name).GetLbnFromBnInOp
                       bn_in_op))⟩) := by
  constructor
  · simp [Actor.Init, Actor.WardKernel]
  · intro i
    simp only [Actor.Init, Actor.WardKernel, List.map_map, List.getElem?_map]
    rfl

end Oneflow
